import Mathlib

/-!
# Verification of the lucky-contracts oracle core

Shallow embedding of the two source files of the repository:

* `src/phat/contracts/raffle/lib.rs` — the phat ("pink") offchain-rollup
  contract `JsOffchainRollup` (admin configuration, the raffle run, the
  address codec and the engine-output conversion);
* `src/logics/impls/oracle.rs` — the era-scoped participant/reward
  registry with its role-gated mutations.

Machine integers are embedded as `Nat` with explicit reduction
`% 2 ^ w` where overflow matters; byte strings are `List Nat` with
every element `< 256`; fallible code returns `Except`.  A Rust
`panic!`/`expect` is embedded as the distinguished error
`RunErr.panicked msg`, kept apart from the contract's typed errors.
-/

/-! ## Byte/word helpers -/

/-- Little-endian bytes of `n`, exactly `k` bytes (`u32`/`u128`/`u16`
serialisation in SCALE). -/
def leBytes (k n : Nat) : List Nat :=
  (List.range k).map (fun i => (n >>> (8 * i)) % 256)

/-- Value of a little-endian byte list. -/
def leBytesToNat (l : List Nat) : Nat := Nat.ofDigits 256 l

/-- Value of a big-endian byte list. -/
def beBytesToNat (l : List Nat) : Nat := Nat.ofDigits 256 l.reverse

/-- Structural (fuel-driven) base-`b` digit expansion, least significant
digit first.  With `fuel ≥ n` this agrees with `Nat.digits b n`
(`toBase_eq_digits` below) while staying kernel-computable. -/
def toBase (b : Nat) : Nat → Nat → List Nat
  | _, 0 => []
  | 0, _ => []
  | fuel + 1, n => n % b :: toBase b fuel (n / b)

/-- Big-endian bytes of `n`, no leading zero byte. -/
def natToBeBytes (n : Nat) : List Nat := (toBase 256 n n).reverse

/-- UTF-8 bytes of a string.  Every string handled by the contract
(hex, SS58, ASCII key names) is ASCII, where UTF-8 coincides with the
code points. -/
def strBytes (s : String) : List Nat := s.data.map Char.toNat

/-! ## Blake2b

The `ink::selector_id!` macro and the SS58 checksum both use Blake2b
(RFC 7693): 256-bit output for selectors, 512-bit for SS58.  Words are
64-bit, embedded as `Nat` reduced `% 2^64`. -/

/-- Addition on 64-bit words. -/
def wadd (a b : Nat) : Nat := (a + b) % 18446744073709551616

/-- Right rotation of a 64-bit word. -/
def wror (x n : Nat) : Nat :=
  (x >>> n) ||| ((x <<< (64 - n)) % 18446744073709551616)

/-- Blake2b initialisation vector. -/
def blakeIV : List Nat :=
  [0x6a09e667f3bcc908, 0xbb67ae8584caa73b, 0x3c6ef372fe94f82b,
   0xa54ff53a5f1d36f1, 0x510e527fade682d1, 0x9b05688c2b3e6c1f,
   0x1f83d9abfb41bd6b, 0x5be0cd19137e2179]

/-- Blake2b message schedule. -/
def blakeSigma : List (List Nat) :=
  [[0, 1, 2, 3, 4, 5, 6, 7, 8, 9, 10, 11, 12, 13, 14, 15],
   [14, 10, 4, 8, 9, 15, 13, 6, 1, 12, 0, 2, 11, 7, 5, 3],
   [11, 8, 12, 0, 5, 2, 15, 13, 10, 14, 3, 6, 7, 1, 9, 4],
   [7, 9, 3, 1, 13, 12, 11, 14, 2, 6, 5, 10, 4, 0, 15, 8],
   [9, 0, 5, 7, 2, 4, 10, 15, 14, 1, 11, 12, 6, 8, 3, 13],
   [2, 12, 6, 10, 0, 11, 8, 3, 4, 13, 7, 5, 15, 14, 1, 9],
   [12, 5, 1, 15, 14, 13, 4, 10, 0, 7, 6, 3, 9, 2, 8, 11],
   [13, 11, 7, 14, 12, 1, 3, 9, 5, 0, 15, 4, 8, 6, 2, 10],
   [6, 15, 14, 9, 11, 3, 0, 8, 12, 2, 13, 7, 1, 4, 10, 5],
   [10, 2, 8, 4, 7, 6, 1, 5, 15, 11, 9, 14, 3, 12, 13, 0]]

/-- The Blake2b `G` mixing function on the 16-word work vector. -/
def blakeG (v : List Nat) (a b c d x y : Nat) : List Nat :=
  let va := wadd (wadd (v.getD a 0) (v.getD b 0)) x
  let vd := wror ((v.getD d 0) ^^^ va) 32
  let vc := wadd (v.getD c 0) vd
  let vb := wror ((v.getD b 0) ^^^ vc) 24
  let va := wadd (wadd va vb) y
  let vd := wror (vd ^^^ va) 16
  let vc := wadd vc vd
  let vb := wror (vb ^^^ vc) 63
  (((v.set a va).set b vb).set c vc).set d vd

/-- One Blake2b round over message words `m`. -/
def blakeRound (m : List Nat) (v : List Nat) (r : Nat) : List Nat :=
  let s := blakeSigma.getD (r % 10) []
  let mi := fun i => m.getD (s.getD i 0) 0
  let v := blakeG v 0 4 8 12 (mi 0) (mi 1)
  let v := blakeG v 1 5 9 13 (mi 2) (mi 3)
  let v := blakeG v 2 6 10 14 (mi 4) (mi 5)
  let v := blakeG v 3 7 11 15 (mi 6) (mi 7)
  let v := blakeG v 0 5 10 15 (mi 8) (mi 9)
  let v := blakeG v 1 6 11 12 (mi 10) (mi 11)
  let v := blakeG v 2 7 8 13 (mi 12) (mi 13)
  blakeG v 3 4 9 14 (mi 14) (mi 15)

/-- The Blake2b compression function: state words `h`, 16 message words
`m`, byte counter `t`, final-block flag `last`. -/
def blakeCompress (h : List Nat) (m : List Nat) (t : Nat) (last : Bool) :
    List Nat :=
  let v := h ++ blakeIV
  let v := v.set 12 ((v.getD 12 0) ^^^ (t % 18446744073709551616))
  let v := v.set 13 ((v.getD 13 0) ^^^ (t / 18446744073709551616 % 18446744073709551616))
  let v := if last then v.set 14 ((v.getD 14 0) ^^^ 18446744073709551615) else v
  let v := (List.range 12).foldl (blakeRound m) v
  (List.range 8).map (fun i => (h.getD i 0) ^^^ ((v.getD i 0) ^^^ (v.getD (i + 8) 0)))

/-- The 16 little-endian message words of a 128-byte block. -/
def blockWords (block : List Nat) : List Nat :=
  (List.range 16).map (fun i => leBytesToNat ((block.drop (8 * i)).take 8))

/-- Little-endian bytes of a 64-bit word. -/
def wordLeBytes (w : Nat) : List Nat :=
  (List.range 8).map (fun i => (w >>> (8 * i)) % 256)

/-- Serialise state words to bytes. -/
def bytesOfWords (ws : List Nat) : List Nat := (ws.map wordLeBytes).flatten

/-- Process the message block by block (structural recursion on a fuel
bound so that the kernel can evaluate it). -/
def blake2bBlocks : Nat → List Nat → List Nat → Nat → List Nat
  | 0, h, msg, t =>
      blakeCompress h (blockWords (msg ++ List.replicate (128 - msg.length) 0))
        (t + msg.length) true
  | fuel + 1, h, msg, t =>
      if 128 < msg.length then
        blake2bBlocks fuel
          (blakeCompress h (blockWords (msg.take 128)) (t + 128) false)
          (msg.drop 128) (t + 128)
      else
        blakeCompress h (blockWords (msg ++ List.replicate (128 - msg.length) 0))
          (t + msg.length) true

/-- Unkeyed Blake2b with an `outLen`-byte digest (`outLen ≤ 64`). -/
def blake2b (outLen : Nat) (msg : List Nat) : List Nat :=
  let h0 := (blakeIV.getD 0 0) ^^^ (0x01010000 ^^^ outLen)
  (bytesOfWords (blake2bBlocks msg.length (blakeIV.set 0 h0) msg 0)).take outLen

/-! ## ink! selectors and the queue key constants

`ink::selector_id!("S")` is the big-endian `u32` made of the first four
bytes of the Blake2b-256 digest of `S`. -/

/-- `ink::selector_id!` — first four bytes of Blake2b-256, big-endian. -/
def selectorId (s : String) : Nat :=
  match blake2b 32 (strBytes s) with
  | b0 :: b1 :: b2 :: b3 :: _ => ((b0 * 256 + b1) * 256 + b2) * 256 + b3
  | _ => 0

/-- `const NEXT_ERA: u32 = ink::selector_id!("NEXT_ERA");` -/
def NEXT_ERA : Nat := selectorId "NEXT_ERA"

/-- `const NB_WINNERS: u32 = ink::selector_id!("NB_WINNERS");` -/
def NB_WINNERS : Nat := selectorId "NB_WINNERS"

/-- `const LAST_WINNERS: u32 = ink::selector_id!("LAST_WINNER");`
(note the source string lacks the final `S`). -/
def LAST_WINNERS : Nat := selectorId "LAST_WINNER"

/-- `pub const ORACLE_DATA_MANAGER: RoleType = ink::selector_id!("ORACLE_DATA_MANAGER");` -/
def ORACLE_DATA_MANAGER : Nat := selectorId "ORACLE_DATA_MANAGER"

/-! ## Errors

`ContractError` is the phat contract's error enum; `RunErr`
distinguishes a typed contract error from a Rust `panic!`
(`expect`), which aborts the call without producing a typed result. -/

/-- The `ContractError` enum of `lib.rs`. -/
inductive ContractError
  | BadOrigin
  | ClientNotConfigured
  | CoreNotConfigured
  | GraphApiNotConfigured
  | InvalidKeyLength
  | InvalidAddressLength
  | NoRequestInQueue
  | FailedToCreateClient
  | FailedToCommitTx
  | FailedToCallRollup
  | JsError (msg : String)
  | FailedToDecode
  | NbWinnersNotSet
  | NextEraUnknown
  deriving DecidableEq, Repr

/-- Outcome of a fallible step: a typed contract error, or a Rust
panic (`expect`/`panic!`) with its message. -/
inductive RunErr
  | contract (e : ContractError)
  | panicked (msg : String)
  deriving DecidableEq, Repr

/-! ## AddressCodec (`convert_address_input` / `convert_address_output`)

The contract converts between raw 32-byte account ids and SS58 strings
via `sp_core`'s `Ss58Codec` (an external dependency, embedded here by
its specified algorithm): base58 over
`version-byte ++ body ++ first-2-bytes-of-Blake2b-512("SS58PRE" ++ version-byte ++ body)`,
with the Astar registry version `5`. -/

/-- The base58 alphabet (Bitcoin order). -/
def b58Alphabet : List Char :=
  "123456789ABCDEFGHJKLMNPQRSTUVWXYZabcdefghijkmnopqrstuvwxyz".data

/-- Digit-to-character table lookup. -/
def b58Char (d : Nat) : Char := b58Alphabet.getD d '?'

/-- Index of a character in a character list (its base58 value). -/
def charIdx (x : Char) : List Char → Option Nat
  | [] => none
  | c :: cs => if x = c then some 0 else (charIdx x cs).map (· + 1)

/-- Big-endian base58 digits of `n`. -/
def b58Digits (n : Nat) : List Nat := (toBase 58 n n).reverse

/-- Base58 encoding of a byte string: one `'1'` per leading zero byte,
then the base58 digits of the big-endian value. -/
def b58Encode (data : List Nat) : String :=
  let z := (data.takeWhile (· == 0)).length
  ⟨List.replicate z '1' ++ (b58Digits (beBytesToNat data)).map b58Char⟩

/-- Values of a character string in the base58 alphabet; `none` as soon
as one character falls outside it. -/
def charVals : List Char → Option (List Nat)
  | [] => some []
  | c :: cs =>
      match charIdx c b58Alphabet, charVals cs with
      | some v, some vs => some (v :: vs)
      | _, _ => none

/-- Base58 decoding; `none` on a character outside the alphabet. -/
def b58Decode (s : String) : Option (List Nat) :=
  let chars := s.data
  let z := (chars.takeWhile (· == '1')).length
  match charVals (chars.drop z) with
  | none => none
  | some ds =>
      some (List.replicate z 0 ++ natToBeBytes (Nat.ofDigits 58 ds.reverse))

/-- The `b"SS58PRE"` checksum preamble. -/
def ss58Pre : List Nat := strBytes "SS58PRE"

/-- `Ss58AddressFormatRegistry::AstarAccount` -/
def astarPrefix : Nat := 5

/-- SS58 encoding of a 32-byte body under a one-byte format identifier. -/
def ss58EncodeWithVersion (version : Nat) (body : List Nat) : String :=
  let data := version :: body
  b58Encode (data ++ (blake2b 64 (ss58Pre ++ data)).take 2)

/-- Registered SS58 format identifiers accepted by
`Ss58Codec::from_ss58check` (abridged to the identifiers relevant
here; the full registry is larger — the contract only produces and
consumes the Astar identifier `5`). -/
def ss58RegistryVersions : List Nat := [0, 1, 2, 3, 5, 42]

/-- SS58 decoding with checksum and registry verification, for the
one-byte format identifiers (`0..=63`); mirrors
`AccountId32::from_ss58check`. -/
def ss58DecodeCheck (s : String) : Option (List Nat) :=
  match b58Decode s with
  | none => none
  | some [] => none
  | some (v :: rest) =>
      if v < 64 ∧ rest.length = 34 then
        let body := rest.take 32
        if rest.drop 32 = (blake2b 64 (ss58Pre ++ v :: body)).take 2
            ∧ v ∈ ss58RegistryVersions then
          some body
        else none
      else none

/-- `fn convert_address_input(address: &AccountId) -> String`.
The SCALE encoding of an `AccountId` is its 32 raw bytes; the
`try_into().expect("incorrect length")` can only fail if the id is not
32 bytes long. -/
def convert_address_input (address : List Nat) : Except RunErr String :=
  if address.length = 32 then
    .ok (ss58EncodeWithVersion astarPrefix address)
  else
    .error (.panicked "incorrect length")

/-- `fn convert_address_output(address: &str) -> AccountId`; the
`expect("incorrect address")` panics on any malformed SS58 string. -/
def convert_address_output (s : String) : Except RunErr (List Nat) :=
  match ss58DecodeCheck s with
  | some a => .ok a
  | none => .error (.panicked "incorrect address")

/-! ## SCALE codec fragments

Just enough of `parity-scale-codec` (an external dependency, embedded
by its specified wire format) for the request/response shapes of
`lib.rs`: fixed-width little-endian integers, strict booleans, compact
length prefixes, UTF-8 strings and vectors. -/

/-- SCALE compact encoding of a `u32`-ranged length. -/
def compactEncode (n : Nat) : List Nat :=
  if n < 64 then [n * 4]
  else if n < 16384 then leBytes 2 (n * 4 + 1)
  else if n < 1073741824 then leBytes 4 (n * 4 + 2)
  else 3 :: leBytes 4 n

/-- SCALE compact decoding of a `Compact<u32>`; enforces the codec's
minimal-encoding checks. -/
def compactDecode (l : List Nat) : Option (Nat × List Nat) :=
  match l with
  | [] => none
  | b :: rest =>
      match b % 4 with
      | 0 => some (b / 4, rest)
      | 1 =>
          match rest with
          | b1 :: r =>
              let v := (b + 256 * b1) / 4
              if 63 < v then some (v, r) else none
          | [] => none
      | 2 =>
          match rest with
          | b1 :: b2 :: b3 :: r =>
              let v := (b + 256 * b1 + 65536 * b2 + 16777216 * b3) / 4
              if 16383 < v then some (v, r) else none
          | _ => none
      | _ =>
          -- big-integer mode; for `Compact<u32>` exactly 4 bytes follow
          if b = 3 then
            match rest with
            | b0 :: b1 :: b2 :: b3 :: r =>
                let v := b0 + 256 * b1 + 65536 * b2 + 16777216 * b3
                if 1073741823 < v then some (v, r) else none
            | _ => none
          else none

/-- Decode a little-endian `u32`. -/
def decodeU32 (l : List Nat) : Option (Nat × List Nat) :=
  if 4 ≤ l.length then some (leBytesToNat (l.take 4), l.drop 4) else none

/-- Decode a little-endian `u128`. -/
def decodeU128 (l : List Nat) : Option (Nat × List Nat) :=
  if 16 ≤ l.length then some (leBytesToNat (l.take 16), l.drop 16) else none

/-- Decode a SCALE `bool` (strict: only `0x00`/`0x01`). -/
def decodeBool (l : List Nat) : Option (Bool × List Nat) :=
  match l with
  | 0 :: r => some (false, r)
  | 1 :: r => some (true, r)
  | _ => none

/-- Decode a SCALE `String` (compact length + bytes).  The real codec
validates UTF-8; this embedding accepts the ASCII subset, which covers
every string the contract produces or consumes. -/
def decodeStr (l : List Nat) : Option (String × List Nat) :=
  match compactDecode l with
  | none => none
  | some (n, rest) =>
      if n ≤ rest.length ∧ (rest.take n).all (· < 128) then
        some (⟨(rest.take n).map Char.ofNat⟩, rest.drop n)
      else none

/-- Decode `n` consecutive SCALE strings. -/
def decodeVecStr : Nat → List Nat → Option (List String × List Nat)
  | 0, l => some ([], l)
  | n + 1, l =>
      match decodeStr l with
      | none => none
      | some (s, r) =>
          match decodeVecStr n r with
          | none => none
          | some (ss, r2) => some (s :: ss, r2)

/-- SCALE encoding of a `String`. -/
def encodeStr (s : String) : List Nat :=
  compactEncode (strBytes s).length ++ strBytes s

/-! ## The request/response shapes and `convert_output` -/

/-- `struct RequestSc { era: u32, nb_winners: u16, excluded: Vec<AccountId> }` -/
structure RequestSc where
  era : Nat
  nb_winners : Nat
  excluded : List (List Nat)
  deriving DecidableEq, Repr

/-- `struct RequestJs { era: u32, nb_winners: u16, excluded: Vec<String> }` -/
structure RequestJs where
  era : Nat
  nb_winners : Nat
  excluded : List String
  deriving DecidableEq, Repr

/-- `struct ResponseJs { era: u32, skipped: bool, rewards: Balance, winners: Vec<String> }` -/
structure ResponseJs where
  era : Nat
  skipped : Bool
  rewards : Nat
  winners : List String
  deriving DecidableEq, Repr

/-- `struct ResponseSc { era: u32, skipped: bool, rewards: Balance, winners: Vec<AccountId> }` -/
structure ResponseSc where
  era : Nat
  skipped : Bool
  rewards : Nat
  winners : List (List Nat)
  deriving DecidableEq, Repr

/-- SCALE encoding of `RequestSc` (accounts are 32 raw bytes each). -/
def encodeRequestSc (r : RequestSc) : List Nat :=
  leBytes 4 r.era ++ leBytes 2 r.nb_winners
    ++ compactEncode r.excluded.length ++ r.excluded.flatten

/-- SCALE encoding of `RequestJs`. -/
def encodeRequestJs (r : RequestJs) : List Nat :=
  leBytes 4 r.era ++ leBytes 2 r.nb_winners
    ++ compactEncode r.excluded.length ++ (r.excluded.map encodeStr).flatten

/-- SCALE decoding of `ResponseJs`, as performed by
`ResponseJs::decode` inside `convert_output` (trailing bytes are
ignored, as in the codec). -/
def decodeResponseJs (l : List Nat) : Option ResponseJs :=
  match decodeU32 l with
  | none => none
  | some (era, r1) =>
      match decodeBool r1 with
      | none => none
      | some (skipped, r2) =>
          match decodeU128 r2 with
          | none => none
          | some (rewards, r3) =>
              match compactDecode r3 with
              | none => none
              | some (n, r4) =>
                  match decodeVecStr n r4 with
                  | none => none
                  | some (winners, _) => some ⟨era, skipped, rewards, winners⟩

/-- SCALE encoding of `ResponseSc`. -/
def encodeResponseSc (r : ResponseSc) : List Nat :=
  leBytes 4 r.era ++ [if r.skipped then 1 else 0] ++ leBytes 16 r.rewards
    ++ compactEncode r.winners.length ++ r.winners.flatten

/-- Convert each winner string back to a raw account id, stopping at
the first failure (a panic inside the `map`). -/
def winnersToAccounts : List String → Except RunErr (List (List Nat))
  | [] => .ok []
  | s :: rest =>
      match convert_address_output s with
      | .error e => .error e
      | .ok a =>
          match winnersToAccounts rest with
          | .error e => .error e
          | .ok tl => .ok (a :: tl)

/-- `fn convert_output(output: Vec<u8>) -> Vec<u8>`.  The source calls
`ResponseJs::decode(..).expect("failed to convert js output")` — a
malformed engine output PANICS rather than returning
`ContractError::FailedToDecode` (which is declared but never used). -/
def convert_output (output : List Nat) : Except RunErr (List Nat) :=
  match decodeResponseJs output with
  | none => .error (.panicked "failed to convert js output")
  | some rj =>
      match winnersToAccounts rj.winners with
      | .error e => .error e
      | .ok ws => .ok (encodeResponseSc ⟨rj.era, rj.skipped, rj.rewards, ws⟩)

/-- `fn convert_request(request_sc: &RequestSc) -> RequestJs` (address
conversion may panic on a malformed id). -/
def convert_request (r : RequestSc) : Except RunErr RequestJs :=
  match r.excluded.mapM convert_address_input with
  | .error e => .error e
  | .ok ex => .ok ⟨r.era, r.nb_winners, ex⟩

/-! ## Contract state (`JsOffchainRollup`) and admin configuration

Mutating messages take the caller and the state and return
`(result, new state)`; an error leaves the state component exactly as
it was if and only if the operation really wrote nothing first.  The
`Lazy<CoreJs>` storage cell is embedded as an explicit `Option`
(absent until first set). -/

/-- An account id (32 bytes when well-formed). -/
abbrev AccountId := List Nat

/-- `struct CoreJs` -/
structure CoreJs where
  script : String
  settings : String
  code_hash : List Nat
  settings_hash : List Nat
  deriving DecidableEq, Repr

/-- `struct Config` -/
structure Config where
  rpc : String
  pallet_id : Nat
  call_id : Nat
  contract_id : List Nat
  sender_key : Option (List Nat)
  deriving DecidableEq, Repr

/-- `struct JsOffchainRollup` (the `#[ink(storage)]` struct). -/
structure JsOffchainRollup where
  owner : AccountId
  config : Option Config
  attest_key : List Nat
  core_js : Option CoreJs
  deriving DecidableEq, Repr

/-- `fn ensure_owner(&self)` -/
def ensure_owner (caller : AccountId) (st : JsOffchainRollup) :
    Except ContractError Unit :=
  if caller = st.owner then .ok () else .error .BadOrigin

/-- `fn ensure_client_configured(&self)` -/
def ensure_client_configured (st : JsOffchainRollup) :
    Except ContractError Config :=
  match st.config with
  | some c => .ok c
  | none => .error .ClientNotConfigured

/-- `fn config_target_contract(...)` — owner-gated; `contract_id` must
convert to a 32-byte `ContractId` and a present `sender_key` to a
32-byte key, each `?`-returning its length error before the `config`
field is assigned. -/
def config_target_contract (caller : AccountId) (rpc : String)
    (pallet_id call_id : Nat) (contract_id : List Nat)
    (sender_key : Option (List Nat)) (st : JsOffchainRollup) :
    Except ContractError Unit × JsOffchainRollup :=
  match ensure_owner caller st with
  | .error e => (.error e, st)
  | .ok () =>
      if contract_id.length = 32 then
        match sender_key with
        | some key =>
            if key.length = 32 then
              (.ok (), { st with
                config := some ⟨rpc, pallet_id, call_id, contract_id, some key⟩ })
            else (.error .InvalidKeyLength, st)
        | none =>
            (.ok (), { st with
              config := some ⟨rpc, pallet_id, call_id, contract_id, none⟩ })
      else (.error .InvalidAddressLength, st)

/-- `fn config_core_js_inner(&mut self, script, settings)` — recomputes
both hashes (`Sha2x256` in the source, abstracted as the hash
parameter `H` on byte strings) from the full resulting pair and stores
the four fields together. -/
def config_core_js_inner (H : List Nat → List Nat)
    (script settings : String) (st : JsOffchainRollup) : JsOffchainRollup :=
  { st with
    core_js := some ⟨script, settings, H (strBytes script), H (strBytes settings)⟩ }

/-- `fn config_core_js(&mut self, script, settings)` -/
def config_core_js (H : List Nat → List Nat) (caller : AccountId)
    (script settings : String) (st : JsOffchainRollup) :
    Except ContractError Unit × JsOffchainRollup :=
  match ensure_owner caller st with
  | .error e => (.error e, st)
  | .ok () => (.ok (), config_core_js_inner H script settings st)

/-- `fn config_core_js_script(&mut self, script)` — requires a prior
full configuration, reuses its `settings`. -/
def config_core_js_script (H : List Nat → List Nat) (caller : AccountId)
    (script : String) (st : JsOffchainRollup) :
    Except ContractError Unit × JsOffchainRollup :=
  match ensure_owner caller st with
  | .error e => (.error e, st)
  | .ok () =>
      match st.core_js with
      | none => (.error .CoreNotConfigured, st)
      | some cj => (.ok (), config_core_js_inner H script cj.settings st)

/-- `fn config_core_js_settings(&mut self, settings)` — requires a
prior full configuration, reuses its `script`. -/
def config_core_js_settings (H : List Nat → List Nat) (caller : AccountId)
    (settings : String) (st : JsOffchainRollup) :
    Except ContractError Unit × JsOffchainRollup :=
  match ensure_owner caller st with
  | .error e => (.error e, st)
  | .ok () =>
      match st.core_js with
      | none => (.error .CoreNotConfigured, st)
      | some cj => (.ok (), config_core_js_inner H cj.script settings st)

/-! ## The raffle run (`run_raffle`)

The rollup client, the JS engine and the transaction submission are
external collaborators; they enter the embedding as an explicit
environment of synchronous call results, keyed exactly where the
source calls them. -/

/-- Output of `phat_js::eval`. -/
inductive JsOutput
  | str (s : String)
  | bytes (b : List Nat)
  | undefined

/-- Results of the external collaborators during one invocation:
`InkRollupClient::new`, the three typed queue reads, `phat_js::eval`,
`commit`, and the two submission paths. -/
structure RollupEnv where
  connectResult : Except Unit Unit
  getU32 : Nat → Except Unit (Option Nat)
  getU16 : Nat → Except Unit (Option Nat)
  getAccounts : Nat → Except Unit (Option (List AccountId))
  jsEval : String → List String → Except String JsOutput
  commitResult : Except Unit (Option Unit)
  submitMetaTx : Except Unit (List Nat)
  submitTx : Except Unit (List Nat)

/-- `fn connect(config: &Config)` — any client-creation failure becomes
`FailedToCreateClient`. -/
def connect (env : RollupEnv) (_config : Config) : Except ContractError Unit :=
  match env.connectResult with
  | .ok () => .ok ()
  | .error _ => .error .FailedToCreateClient

/-- Hex digit characters. -/
def hexChar (n : Nat) : Char := "0123456789abcdef".data.getD n '0'

/-- `format!("0x{}", HexFmt(request))` -/
def hexFmt (l : List Nat) : String :=
  ⟨'0' :: 'x' :: (l.map (fun b => [hexChar (b / 16), hexChar (b % 16)])).flatten⟩

/-- `fn run_js_inner(&self, js_code, request, settings)` -/
def run_js_inner (env : RollupEnv) (js_code : String) (request : List Nat)
    (settings : String) : Except RunErr (List Nat) :=
  match env.jsEval js_code [hexFmt request, settings] with
  | .error e => .error (.contract (.JsError e))
  | .ok (.str s) => .ok (strBytes s)
  | .ok (.bytes b) => .ok b
  | .ok .undefined => .error (.contract (.JsError "Undefined output"))

/-- `enum ResponseMessage` -/
inductive ResponseMessage
  | jsResponse (js_script_hash : List Nat) (input_hash : List Nat)
      (settings_hash : List Nat) (output_value : List Nat)
  | errorResponse (js_script_hash : List Nat) (input_value : List Nat)
      (settings_hash : List Nat) (error : List Nat)

/-- `fn handle_request(&self, request_sc)` — fails with
`CoreNotConfigured` when the lazy `core_js` cell is empty, before any
engine work. -/
def handle_request (H : List Nat → List Nat) (env : RollupEnv)
    (st : JsOffchainRollup) (request_sc : RequestSc) :
    Except RunErr ResponseMessage :=
  match st.core_js with
  | none => .error (.contract .CoreNotConfigured)
  | some cj =>
      match convert_request request_sc with
      | .error e => .error e
      | .ok request_js =>
          match run_js_inner env cj.script (encodeRequestJs request_js)
              cj.settings with
          | .error e => .error e
          | .ok output_value_js =>
              match convert_output output_value_js with
              | .error e => .error e
              | .ok out =>
                  .ok (.jsResponse cj.code_hash
                    (H (encodeRequestSc request_sc)) cj.settings_hash out)

/-- `fn maybe_submit_tx(client, attest_key, sender_key)` — `Ok(None)`
when there was nothing to commit; a configured sender key selects the
meta-transaction path. -/
def maybe_submit_tx (env : RollupEnv) (_attest_key : List Nat)
    (sender_key : Option (List Nat)) : Except RunErr (Option (List Nat)) :=
  match env.commitResult with
  | .error _ => .error (.contract .FailedToCommitTx)
  | .ok none => .ok none
  | .ok (some _) =>
      match sender_key with
      | some _ =>
          match env.submitMetaTx with
          | .error _ => .error (.contract .FailedToCallRollup)
          | .ok tx => .ok (some tx)
      | none =>
          match env.submitTx with
          | .error _ => .error (.contract .FailedToCallRollup)
          | .ok tx => .ok (some tx)

/-- `fn run_raffle(&self)` — the full orchestration: configuration
check, client creation, the three keyed queue reads (`NEXT_ERA`,
`NB_WINNERS`, `LAST_WINNERS`), request handling, reply attachment and
commit. -/
def run_raffle (H : List Nat → List Nat) (env : RollupEnv)
    (st : JsOffchainRollup) : Except RunErr (Option (List Nat)) :=
  match ensure_client_configured st with
  | .error e => .error (.contract e)
  | .ok config =>
      match connect env config with
      | .error e => .error (.contract e)
      | .ok () =>
          match env.getU32 NEXT_ERA with
          | .error _ => .error (.contract .FailedToCallRollup)
          | .ok none => .error (.contract .NextEraUnknown)
          | .ok (some era) =>
              match env.getU16 NB_WINNERS with
              | .error _ => .error (.contract .FailedToCallRollup)
              | .ok none => .error (.contract .NbWinnersNotSet)
              | .ok (some nb_winners) =>
                  match env.getAccounts LAST_WINNERS with
                  | .error _ => .error (.contract .FailedToCallRollup)
                  | .ok maybeExcluded =>
                      match handle_request H env st
                          ⟨era, nb_winners, maybeExcluded.getD []⟩ with
                      | .error e => .error e
                      | .ok _response =>
                          maybe_submit_tx env st.attest_key config.sender_key

/-! ## The era-scoped registry (`src/logics/impls/oracle.rs`)

The `openbrush::storage::Mapping` is embedded as an association list
observed only through `mapGet`/`mapInsert`/`mapRemove`; the
access-control role store is a membership list.  Mutations return
`(result, new state)`. -/

/-- Modelled from the spec: `OracleManagementError` is declared in
`traits/oracle.rs`, a file of this repository that is not under
`src/`; the spec only requires that a caller lacking the
registry-manager capability receives "the authorization error" as a
typed result. -/
inductive OracleManagementError
  | accessControlError
  deriving DecidableEq, Repr

/-- Modelled from the spec: `OracleData` is declared in
`traits/oracle.rs` (not under `src/`); its shape
`{participants: [(account, weight)], reward}` is fixed by the spec and
by its construction in `get_data`. -/
structure OracleData where
  participants : List (AccountId × Nat)
  rewards : Nat
  deriving DecidableEq, Repr

/-- Lookup in the reward mapping. -/
def mapGet (k : Nat) : List (Nat × Nat) → Option Nat
  | [] => none
  | (k2, v) :: t => if k2 = k then some v else mapGet k t

/-- Removal from the reward mapping. -/
def mapRemove (k : Nat) : List (Nat × Nat) → List (Nat × Nat)
  | [] => []
  | (k2, v) :: t => if k2 = k then mapRemove k t else (k2, v) :: mapRemove k t

/-- Upsert into the reward mapping (at most one entry per key). -/
def mapInsert (k v : Nat) (m : List (Nat × Nat)) : List (Nat × Nat) :=
  (k, v) :: mapRemove k m

/-- The registry storage (`Data` in the source) together with the
`access_control` role store it is gated by: participant rows
`(account, era, weight)` and the reward mapping. -/
structure Data where
  participants : List (AccountId × Nat × Nat)
  rewards : List (Nat × Nat)
  roles : List (Nat × AccountId)
  deriving DecidableEq, Repr

/-- Modelled from the spec: the openbrush `only_role` capability test —
does `caller` hold `role`? -/
def hasRole (role : Nat) (caller : AccountId) (st : Data) : Bool :=
  st.roles.any (fun p => p.1 == role && p.2 == caller)

/-- `fn get_data(&self, era: u32)` — read view: rows of the era with
the era field stripped, and the reward or zero. -/
def get_data (st : Data) (era : Nat) : OracleData :=
  ⟨(st.participants.filter (fun r => r.2.1 == era)).map (fun r => (r.1, r.2.2)),
   (mapGet era st.rewards).getD 0⟩

/-- `fn add_participant(...)` under the `only_role(ORACLE_DATA_MANAGER)`
modifier: appends one row, duplicates allowed. -/
def add_participant (caller : AccountId) (era : Nat) (participant : AccountId)
    (value : Nat) (st : Data) : Except OracleManagementError Unit × Data :=
  if hasRole ORACLE_DATA_MANAGER caller st then
    (.ok (), { st with participants := st.participants ++ [(participant, era, value)] })
  else (.error .accessControlError, st)

/-- The `for` loop of `add_participants`: sequential `add_participant`
with `?`-propagation of the first failure, keeping the state reached
so far. -/
def addParticipantsLoop (caller : AccountId) (era : Nat) :
    List (AccountId × Nat) → Data → Except OracleManagementError Unit × Data
  | [], st => (.ok (), st)
  | (participant, value) :: rest, st =>
      match add_participant caller era participant value st with
      | (.ok (), st2) => addParticipantsLoop caller era rest st2
      | (.error e, st2) => (.error e, st2)

/-- `fn add_participants(...)` under its own `only_role` modifier. -/
def add_participants (caller : AccountId) (era : Nat)
    (participants : List (AccountId × Nat)) (st : Data) :
    Except OracleManagementError Unit × Data :=
  if hasRole ORACLE_DATA_MANAGER caller st then
    addParticipantsLoop caller era participants st
  else (.error .accessControlError, st)

/-- `fn set_rewards(...)` under `only_role`: upsert. -/
def set_rewards (caller : AccountId) (era : Nat) (value : Nat) (st : Data) :
    Except OracleManagementError Unit × Data :=
  if hasRole ORACLE_DATA_MANAGER caller st then
    (.ok (), { st with rewards := mapInsert era value st.rewards })
  else (.error .accessControlError, st)

/-- The `while i < len` removal loop of `clear_data`: at index `i`,
remove the row if its era matches (keeping `i`), otherwise step to
`i + 1`. -/
def clearLoop (era : Nat) (i : Nat) (l : List (AccountId × Nat × Nat)) :
    List (AccountId × Nat × Nat) :=
  if h : i < l.length then
    if (l.get ⟨i, h⟩).2.1 = era then clearLoop era i (l.eraseIdx i)
    else clearLoop era (i + 1) l
  else l
termination_by l.length - i
decreasing_by
  · have := List.length_eraseIdx_of_lt h
    omega
  · omega

/-- `fn clear_data(...)` under `only_role`: removes the era's reward
entry and runs the removal loop from index 0. -/
def clear_data (caller : AccountId) (era : Nat) (st : Data) :
    Except OracleManagementError Unit × Data :=
  if hasRole ORACLE_DATA_MANAGER caller st then
    (.ok (), { st with rewards := mapRemove era st.rewards,
                       participants := clearLoop era 0 st.participants })
  else (.error .accessControlError, st)

/-! ## Claim C3 — the queue keys -/

set_option maxRecDepth 200000 in
/-- C3 (counterexample): the claim asserts that the `LAST_WINNERS` queue
key equals the selector id of its listed name `LAST_WINNERS`; in the
source the key is computed from the string `"LAST_WINNER"` (without the
final `S`), and the two selector ids differ. -/
theorem claim_C3_counterexample : LAST_WINNERS ≠ selectorId "LAST_WINNERS" := by
  decide

set_option maxRecDepth 200000 in
/-- C3 (amended): the queue keys used by `run_raffle` are the selector
ids (first four big-endian bytes of the Blake2b-256 digest of the name)
of `NEXT_ERA`, `NB_WINNERS` and `LAST_WINNER` respectively — the third
key is derived from the name `LAST_WINNER`, not `LAST_WINNERS` — and
the scheme keeps the three keys pairwise distinct. -/
theorem claim_C3_amended :
    NEXT_ERA = selectorId "NEXT_ERA" ∧
    NB_WINNERS = selectorId "NB_WINNERS" ∧
    LAST_WINNERS = selectorId "LAST_WINNER" ∧
    NEXT_ERA ≠ NB_WINNERS ∧ NEXT_ERA ≠ LAST_WINNERS ∧
    NB_WINNERS ≠ LAST_WINNERS := by
  refine ⟨rfl, rfl, rfl, ?_, ?_, ?_⟩ <;> decide

/-! ## Claim C4 — malformed engine output -/

/-- C4 (code bug): on an engine output that cannot be decoded into the
`ResponseJs` shape (here: the empty byte string), `convert_output`
panics through `expect("failed to convert js output")` instead of
returning the typed error `FailedToDecode` (which `ContractError`
declares but the source never constructs). -/
theorem claim_C4_panics :
    convert_output [] = .error (.panicked "failed to convert js output") := rfl

/-! ## Claim C10 — atomicity of `config_target_contract` validation -/

/-- C10: called by the owner with a `contract_id` that is not 32 bytes,
`config_target_contract` returns `InvalidAddressLength`; with a valid
`contract_id` and a present `sender_key` that is not 32 bytes it
returns `InvalidKeyLength`; in both cases the whole state — in
particular any previously stored config — is exactly unchanged. -/
theorem claim_C10 (caller : AccountId) (rpc : String) (pallet_id call_id : Nat)
    (contract_id : List Nat) (sender_key : Option (List Nat))
    (st : JsOffchainRollup) (hown : caller = st.owner) :
    (contract_id.length ≠ 32 →
      config_target_contract caller rpc pallet_id call_id contract_id
        sender_key st = (.error .InvalidAddressLength, st)) ∧
    (∀ key, contract_id.length = 32 → sender_key = some key →
      key.length ≠ 32 →
      config_target_contract caller rpc pallet_id call_id contract_id
        sender_key st = (.error .InvalidKeyLength, st)) := by
  constructor
  · intro hlen
    simp [config_target_contract, ensure_owner, hown, hlen]
  · intro key hlen hkey hkeylen
    simp [config_target_contract, ensure_owner, hown, hlen, hkey, hkeylen]

/-- Concrete instances for the C10 witness. -/
def stWithConfig : JsOffchainRollup :=
  ⟨[7], some ⟨"wss://rpc", 1, 2, List.replicate 32 9, none⟩, [], none⟩

/-- Witness for C10 at a concrete prior configuration: a 31-byte
contract id and a 31-byte sender key each yield their length error and
leave the stored config as it was. -/
theorem claim_C10_witness :
    config_target_contract [7] "r" 1 2 (List.replicate 31 0) none stWithConfig
      = (.error .InvalidAddressLength, stWithConfig) ∧
    config_target_contract [7] "r" 1 2 (List.replicate 32 0)
        (some (List.replicate 31 0)) stWithConfig
      = (.error .InvalidKeyLength, stWithConfig) :=
  ⟨(claim_C10 [7] "r" 1 2 (List.replicate 31 0) none stWithConfig rfl).1
      (by decide),
   (claim_C10 [7] "r" 1 2 (List.replicate 32 0) (some (List.replicate 31 0))
      stWithConfig rfl).2 (List.replicate 31 0) (by decide) rfl (by decide)⟩

/-! ## Claim C1 — configuration gating of `run_raffle` -/

/-- C1: for every hash function, caller-independent state and external
environment, `run_raffle` with no target configuration fails with
`ClientNotConfigured` (unconditionally, before any external call); with
a target configured but no core script, it fails with
`CoreNotConfigured` as soon as the external client steps let execution
reach the core-script lookup (client creation succeeds and the
`NEXT_ERA` / `NB_WINNERS` / `LAST_WINNERS` reads return without
transport error, the first two non-empty). -/
theorem claim_C1 (H : List Nat → List Nat) (env : RollupEnv)
    (st : JsOffchainRollup) :
    (st.config = none →
      run_raffle H env st = .error (.contract .ClientNotConfigured)) ∧
    (st.config.isSome → st.core_js = none →
      env.connectResult = .ok () →
      (∃ e, env.getU32 NEXT_ERA = .ok (some e)) →
      (∃ w, env.getU16 NB_WINNERS = .ok (some w)) →
      (∃ x, env.getAccounts LAST_WINNERS = .ok x) →
      run_raffle H env st = .error (.contract .CoreNotConfigured)) := by
  constructor
  · intro hc
    simp [run_raffle, ensure_client_configured, hc]
  · rintro hc hcore hconn ⟨e, he⟩ ⟨w, hw⟩ ⟨x, hx⟩
    obtain ⟨c, hcfg⟩ := Option.isSome_iff_exists.mp hc
    simp [run_raffle, ensure_client_configured, hcfg, connect, hconn, he, hw,
      hx, handle_request, hcore]

/-- A stand-in hash for witnesses (the claims hold for every hash). -/
def hashW : List Nat → List Nat := fun l => l

/-- A benign environment for witnesses: every external step succeeds. -/
def envW : RollupEnv where
  connectResult := .ok ()
  getU32 := fun _ => .ok (some 1)
  getU16 := fun _ => .ok (some 1)
  getAccounts := fun _ => .ok none
  jsEval := fun _ _ => .ok .undefined
  commitResult := .ok none
  submitMetaTx := .ok []
  submitTx := .ok []

/-- Entirely unconfigured contract state. -/
def stUnconfigured : JsOffchainRollup := ⟨[7], none, [], none⟩

/-- Target configured, core script not yet configured. -/
def stClientOnly : JsOffchainRollup :=
  ⟨[7], some ⟨"wss://rpc", 1, 2, List.replicate 32 9, none⟩, [], none⟩

/-- Witness for C1 at concrete states and a concrete benign
environment. -/
theorem claim_C1_witness :
    run_raffle hashW envW stUnconfigured
      = .error (.contract .ClientNotConfigured) ∧
    run_raffle hashW envW stClientOnly
      = .error (.contract .CoreNotConfigured) :=
  ⟨(claim_C1 hashW envW stUnconfigured).1 rfl,
   (claim_C1 hashW envW stClientOnly).2 rfl rfl rfl ⟨1, rfl⟩ ⟨1, rfl⟩
     ⟨none, rfl⟩⟩

/-! ## Claim C5 — the derived-hash invariant of `CoreJs` -/

/-- The invariant: whenever the `CoreJs` value is present, its
`code_hash` is the hash of its stored `script` and its `settings_hash`
the hash of its stored `settings`. -/
def coreJsInv (H : List Nat → List Nat) (st : JsOffchainRollup) : Prop :=
  ∀ cj, st.core_js = some cj →
    cj.code_hash = H (strBytes cj.script) ∧
    cj.settings_hash = H (strBytes cj.settings)

/-- C5: every core-script operation (`config_core_js`,
`config_core_js_script`, `config_core_js_settings`), by any caller,
preserves the derived-hash invariant: both hashes are always recomputed
from the stored texts by `config_core_js_inner` and never supplied
independently. -/
theorem claim_C5 (H : List Nat → List Nat) (caller : AccountId)
    (st : JsOffchainRollup) (hinv : coreJsInv H st) :
    (∀ s c, coreJsInv H (config_core_js H caller s c st).2) ∧
    (∀ s, coreJsInv H (config_core_js_script H caller s st).2) ∧
    (∀ c, coreJsInv H (config_core_js_settings H caller c st).2) := by
  refine ⟨fun s c => ?_, fun s => ?_, fun c => ?_⟩ <;>
  · intro cj hcj
    first
    | (unfold config_core_js at hcj
       cases howner : ensure_owner caller st <;> rw [howner] at hcj
       · exact hinv cj hcj
       · simp [config_core_js_inner] at hcj
         simp [← hcj])
    | (unfold config_core_js_script at hcj
       cases howner : ensure_owner caller st <;> rw [howner] at hcj
       · exact hinv cj hcj
       · cases hc : st.core_js <;> rw [hc] at hcj
         · exact hinv cj hcj
         · simp [config_core_js_inner] at hcj
           simp [← hcj])
    | (unfold config_core_js_settings at hcj
       cases howner : ensure_owner caller st <;> rw [howner] at hcj
       · exact hinv cj hcj
       · cases hc : st.core_js <;> rw [hc] at hcj
         · exact hinv cj hcj
         · simp [config_core_js_inner] at hcj
           simp [← hcj])

/-- Witness for C5 at concrete states: the invariant holds after a full
configuration from the empty state and after each partial setter from a
correctly configured state. -/
theorem claim_C5_witness :
    coreJsInv hashW (config_core_js hashW [7] "scr" "set" stUnconfigured).2 ∧
    coreJsInv hashW (config_core_js_script hashW [7] "scr2"
      (config_core_js hashW [7] "scr" "set" stUnconfigured).2).2 :=
  ⟨(claim_C5 hashW [7] stUnconfigured (fun _ h => nomatch h)).1 "scr" "set",
   ((claim_C5 hashW [7] (config_core_js hashW [7] "scr" "set" stUnconfigured).2
      ((claim_C5 hashW [7] stUnconfigured (fun _ h => nomatch h)).1 "scr" "set")).2.1
      "scr2")⟩

/-! ## Claim C6 — partial core-script update and its gating -/

/-- C6: by the owner, on a state whose core script is configured (its
stored `settings_hash` being the derived hash, as every reachable state
has), `config_core_js_script s2` succeeds and the new `CoreJs` keeps
`settings` and `settings_hash` unchanged while `code_hash` becomes the
hash of `s2`; on a state with no core script, both partial setters fail
with `CoreNotConfigured` and change nothing. -/
theorem claim_C6 (H : List Nat → List Nat) (caller : AccountId) (s2 : String)
    (st : JsOffchainRollup) (hown : caller = st.owner) :
    (∀ cj, st.core_js = some cj →
      cj.settings_hash = H (strBytes cj.settings) →
      config_core_js_script H caller s2 st =
        (.ok (), { st with
          core_js := some ⟨s2, cj.settings, H (strBytes s2), cj.settings_hash⟩ })) ∧
    (st.core_js = none →
      config_core_js_script H caller s2 st = (.error .CoreNotConfigured, st) ∧
      ∀ c2, config_core_js_settings H caller c2 st =
        (.error .CoreNotConfigured, st)) := by
  constructor
  · intro cj hcj hsh
    simp [config_core_js_script, ensure_owner, hown, hcj,
      config_core_js_inner, hsh]
  · intro hcore
    refine ⟨?_, fun c2 => ?_⟩ <;>
      simp [config_core_js_script, config_core_js_settings, ensure_owner,
        hown, hcore]

/-- A state whose core script is configured with derived hashes. -/
def stCore : JsOffchainRollup :=
  ⟨[7], none, [],
   some ⟨"scr", "set", hashW (strBytes "scr"), hashW (strBytes "set")⟩⟩

/-- Witness for C6 at concrete states. -/
theorem claim_C6_witness :
    config_core_js_script hashW [7] "scr2" stCore =
      (.ok (), { stCore with
        core_js := some ⟨"scr2", "set", hashW (strBytes "scr2"), hashW (strBytes "set")⟩ }) ∧
    config_core_js_script hashW [7] "scr2" stUnconfigured =
      (.error .CoreNotConfigured, stUnconfigured) :=
  ⟨(claim_C6 hashW [7] "scr2" stCore rfl).1
      ⟨"scr", "set", hashW (strBytes "scr"), hashW (strBytes "set")⟩ rfl rfl,
   ((claim_C6 hashW [7] "scr2" stUnconfigured rfl).2 rfl).1⟩

/-! ## Claim C7 — capability gating of the registry mutations -/

/-- C7: a caller that does not hold the `ORACLE_DATA_MANAGER` role gets
the authorization error from each mutating registry operation, and the
returned state — participants, rewards and roles — is exactly the input
state. -/
theorem claim_C7 (caller : AccountId) (st : Data)
    (h : hasRole ORACLE_DATA_MANAGER caller st = false) :
    (∀ era p v, add_participant caller era p v st =
      (.error .accessControlError, st)) ∧
    (∀ era l, add_participants caller era l st =
      (.error .accessControlError, st)) ∧
    (∀ era v, set_rewards caller era v st =
      (.error .accessControlError, st)) ∧
    (∀ era, clear_data caller era st = (.error .accessControlError, st)) := by
  refine ⟨fun era p v => ?_, fun era l => ?_, fun era v => ?_, fun era => ?_⟩ <;>
    simp [add_participant, add_participants, set_rewards, clear_data, h]

/-- A registry state granting the manager role to account `[1]` only. -/
def regSt : Data :=
  ⟨[([2], 3, 10)], [(3, 50)], [(ORACLE_DATA_MANAGER, [1])]⟩

set_option maxRecDepth 200000 in
/-- Witness for C7: account `[9]` holds no role in `regSt`; every
mutation errors and returns `regSt` itself. -/
theorem claim_C7_witness :
    add_participant [9] 3 [4] 7 regSt = (.error .accessControlError, regSt) ∧
    add_participants [9] 3 [([4], 7)] regSt =
      (.error .accessControlError, regSt) ∧
    set_rewards [9] 3 7 regSt = (.error .accessControlError, regSt) ∧
    clear_data [9] 3 regSt = (.error .accessControlError, regSt) :=
  ⟨(claim_C7 [9] regSt (by decide)).1 3 [4] 7,
   (claim_C7 [9] regSt (by decide)).2.1 3 [([4], 7)],
   (claim_C7 [9] regSt (by decide)).2.2.1 3 7,
   (claim_C7 [9] regSt (by decide)).2.2.2 3⟩

/-! ## Claim C8 — `add_participants` is the sequential batch -/

/-- `add_participant` never touches the role store. -/
theorem hasRole_add_participant (role : Nat) (c caller : AccountId)
    (era : Nat) (p : AccountId) (v : Nat) (st : Data) :
    hasRole role c (add_participant caller era p v st).2 = hasRole role c st := by
  unfold add_participant
  split <;> simp [hasRole]

/-- For a role-holding caller the loop appends exactly the batch rows,
in order. -/
theorem addParticipantsLoop_ok (caller : AccountId) (era : Nat) :
    ∀ (l : List (AccountId × Nat)) (st : Data),
      hasRole ORACLE_DATA_MANAGER caller st = true →
      addParticipantsLoop caller era l st =
        (.ok (), { st with participants :=
          st.participants ++ l.map (fun pv => (pv.1, era, pv.2)) }) := by
  intro l
  induction l with
  | nil => intro st h; simp [addParticipantsLoop]
  | cons pv tl ih =>
      intro st h
      obtain ⟨p, v⟩ := pv
      have hstep : add_participant caller era p v st =
          (.ok (), { st with participants :=
            st.participants ++ [(p, era, v)] }) := by
        simp [add_participant, h]
      have hrole2 : hasRole ORACLE_DATA_MANAGER caller
          { st with participants := st.participants ++ [(p, era, v)] } = true := by
        simpa [hasRole] using h
      rw [addParticipantsLoop, hstep]
      show addParticipantsLoop caller era tl
          { st with participants := st.participants ++ [(p, era, v)] } = _
      rw [ih _ hrole2]
      simp

/-- C8: `add_participants` is the sequential application of
`add_participant` to the batch elements in order — the head step runs
first and a failing step would end the batch with the state reached so
far (no rollback) — and, the role being held throughout, the batch
succeeds, appending exactly the rows of the list, in order, to the
participants. -/
theorem claim_C8 (caller : AccountId) (era : Nat) :
    (∀ p v rest st, hasRole ORACLE_DATA_MANAGER caller st = true →
      add_participants caller era ((p, v) :: rest) st =
        (match add_participant caller era p v st with
         | (.ok (), st2) => addParticipantsLoop caller era rest st2
         | (.error e, st2) => (.error e, st2))) ∧
    (∀ (l : List (AccountId × Nat)) st,
      hasRole ORACLE_DATA_MANAGER caller st = true →
      add_participants caller era l st =
        (.ok (), { st with participants :=
          st.participants ++ l.map (fun pv => (pv.1, era, pv.2)) })) := by
  constructor
  · intro p v rest st h
    rw [add_participants, if_pos h, addParticipantsLoop]
  · intro l st h
    rw [add_participants, if_pos h, addParticipantsLoop_ok caller era l st h]

set_option maxRecDepth 200000 in
/-- Witness for C8 at a concrete two-element batch by the role
holder `[1]` of `regSt`. -/
theorem claim_C8_witness :
    add_participants [1] 4 [([4], 7), ([5], 8)] regSt =
      (.ok (), { regSt with participants :=
        regSt.participants ++ [([4], 4, 7), ([5], 4, 8)] }) :=
  (claim_C8 [1] 4).2 [([4], 7), ([5], 8)] regSt (by decide)

/-! ## Claim C2 — `clear_data` clears exactly the era -/

/-- The removal loop, started anywhere, keeps the prefix before `i` and
filters the era out of the suffix. -/
theorem clearLoop_eq (era : Nat) :
    ∀ (i : Nat) (l : List (AccountId × Nat × Nat)),
      clearLoop era i l =
        l.take i ++ (l.drop i).filter (fun r => r.2.1 ≠ era) := by
  intro i l
  induction i, l using clearLoop.induct era with
  | case1 i l h heq ih =>
      have heq2 : l[i].2.1 = era := heq
      rw [clearLoop, dif_pos h, if_pos heq, ih,
        List.eraseIdx_eq_take_drop_succ]
      rw [List.take_append_of_le_length (by simp [List.length_take]; omega)]
      rw [List.take_take]
      rw [List.drop_append_of_le_length (by simp [List.length_take]; omega)]
      rw [List.drop_eq_getElem_cons h, List.filter_cons]
      simp [heq2, List.filter_append, List.drop_take]
  | case2 i l h heq ih =>
      have heq2 : ¬ l[i].2.1 = era := heq
      rw [clearLoop, dif_pos h, if_neg heq, ih]
      rw [List.drop_eq_getElem_cons h, List.filter_cons]
      have ht : List.take (i + 1) l = List.take i l ++ [l[i]] := by
        rw [List.take_succ, List.getElem?_eq_getElem h]
        rfl
      rw [ht, List.append_assoc, List.singleton_append]
      simp [heq2]
  | case3 i l h =>
      rw [clearLoop, dif_neg h]
      have hle : l.length ≤ i := by omega
      simp [List.take_of_length_le hle, List.drop_of_length_le hle]

/-- Reward lookups at other keys pass through a removal. -/
theorem mapGet_remove_ne (k e : Nat) (h : e ≠ k) :
    ∀ m : List (Nat × Nat), mapGet e (mapRemove k m) = mapGet e m := by
  intro m
  induction m with
  | nil => rfl
  | cons p t ih =>
      obtain ⟨k2, v⟩ := p
      by_cases hk : k2 = k
      · have hne : ¬ k = e := fun hh => h hh.symm
        simp [mapRemove, mapGet, hk, hne, ih]
      · by_cases he : k2 = e <;> simp [mapRemove, mapGet, hk, he, h, ih]

/-- The removed key reads back as absent. -/
theorem mapGet_remove_self (k : Nat) :
    ∀ m : List (Nat × Nat), mapGet k (mapRemove k m) = none := by
  intro m
  induction m with
  | nil => rfl
  | cons p t ih =>
      obtain ⟨k2, v⟩ := p
      by_cases hk : k2 = k <;> simp [mapRemove, mapGet, hk, ih]

/-- C2: after a role-holding caller runs `clear_data era`, the
operation reports success, `get_data era` reads back the empty
participant list and reward `0`, the surviving participant rows are
exactly the rows of the other eras in their original order (no row of
`era` remains, every other row is untouched), and `get_data` at any
other era is unchanged. -/
theorem claim_C2 (caller : AccountId) (era : Nat) (st : Data)
    (h : hasRole ORACLE_DATA_MANAGER caller st = true) :
    (clear_data caller era st).1 = .ok () ∧
    get_data (clear_data caller era st).2 era = ⟨[], 0⟩ ∧
    (clear_data caller era st).2.participants =
      st.participants.filter (fun r => r.2.1 ≠ era) ∧
    (∀ e2, e2 ≠ era →
      get_data (clear_data caller era st).2 e2 = get_data st e2) := by
  have hclear : clear_data caller era st =
      (.ok (), { st with rewards := mapRemove era st.rewards,
                         participants := clearLoop era 0 st.participants }) := by
    rw [clear_data, if_pos h]
  refine ⟨by rw [hclear], ?_, ?_, ?_⟩
  · rw [hclear]
    unfold get_data
    rw [clearLoop_eq]
    simp only [List.take_zero, List.drop_zero, List.nil_append]
    rw [List.filter_filter]
    have : ∀ r : AccountId × Nat × Nat,
        ((r.2.1 == era) && decide (r.2.1 ≠ era)) = false := by
      intro r; by_cases hr : r.2.1 = era <;> simp [hr]
    rw [List.filter_congr (fun r _ => this r), List.filter_false]
    simp [mapGet_remove_self]
  · rw [hclear]
    rw [clearLoop_eq]
    simp
  · intro e2 he2
    rw [hclear]
    unfold get_data
    rw [clearLoop_eq]
    simp only [List.take_zero, List.drop_zero, List.nil_append]
    rw [List.filter_filter]
    have : ∀ r : AccountId × Nat × Nat,
        ((r.2.1 == e2) && decide (r.2.1 ≠ era)) = (r.2.1 == e2) := by
      intro r
      by_cases hr : r.2.1 = e2
      · simp [hr, he2]
      · simp [hr]
    rw [List.filter_congr (fun r _ => this r)]
    simp [mapGet_remove_ne era e2 he2]

set_option maxRecDepth 200000 in
/-- Witness for C2: clearing era `3` of `regSt` (which has one era-3
row and an era-3 reward) through the role holder `[1]`. -/
theorem claim_C2_witness :
    (clear_data [1] 3 regSt).1 = .ok () ∧
    get_data (clear_data [1] 3 regSt).2 3 = ⟨[], 0⟩ ∧
    (clear_data [1] 3 regSt).2.participants =
      regSt.participants.filter (fun r => r.2.1 ≠ 3) ∧
    get_data (clear_data [1] 3 regSt).2 4 = get_data regSt 4 :=
  have h := claim_C2 [1] 3 regSt (by decide)
  ⟨h.1, h.2.1, h.2.2.1, h.2.2.2 4 (by decide)⟩

/-! ## Claim C9 — the address codec round trip -/

/-- With enough fuel, `toBase` is `Nat.digits`. -/
theorem toBase_eq_digits (b : Nat) (hb : 2 ≤ b) :
    ∀ fuel n : Nat, n ≤ fuel → toBase b fuel n = Nat.digits b n := by
  intro fuel
  induction fuel with
  | zero =>
      intro n hn
      have : n = 0 := by omega
      subst this
      simp [toBase]
  | succ fuel ih =>
      intro n hn
      rcases Nat.eq_zero_or_pos n with h0 | h0
      · subst h0; simp [toBase]
      · obtain ⟨m, rfl⟩ : ∃ k, n = k + 1 :=
          Nat.exists_eq_succ_of_ne_zero (by omega)
        rw [show toBase b (fuel + 1) (m + 1)
              = (m + 1) % b :: toBase b fuel ((m + 1) / b) from rfl]
        rw [Nat.digits_def' (by omega : 1 < b) (Nat.succ_pos m)]
        have hdiv : (m + 1) / b ≤ fuel := by
          have := Nat.div_lt_self (show 0 < m + 1 by omega)
            (show 1 < b by omega)
          omega
        rw [ih _ hdiv]

/-- The alphabet table inverts on every base58 digit. -/
theorem charIdx_b58Char :
    ∀ d, d < 58 → charIdx (b58Char d) b58Alphabet = some d := by decide

/-- A nonzero digit never maps to the leading-zero marker `'1'`. -/
theorem b58Char_ne_one : ∀ d, d < 58 → d ≠ 0 → ¬ b58Char d = '1' := by decide

/-- Digit-wise inversion lifts through `charVals`. -/
theorem charVals_map (ds : List Nat) (hd : ∀ d ∈ ds, d < 58) :
    charVals (ds.map b58Char) = some ds := by
  induction ds with
  | nil => rfl
  | cons d t ih =>
      have h1 := charIdx_b58Char d (hd d (by simp))
      have h2 := ih (fun x hx => hd x (by simp [hx]))
      simp [charVals, h1, h2]

/-- Base58 round trip on byte strings with a nonzero leading byte (the
only shape SS58 produces: the data starts with the format identifier). -/
theorem b58_roundtrip (d : Nat) (t : List Nat) (hd : d ≠ 0)
    (hb : ∀ x ∈ d :: t, x < 256) :
    b58Decode (b58Encode (d :: t)) = some (d :: t) := by
  set n := beBytesToNat (d :: t) with hn
  have hb2 : ∀ x ∈ (d :: t).reverse, x < 256 :=
    fun x hx => hb x (List.mem_reverse.mp hx)
  have hlast : ∀ h2 : (d :: t).reverse ≠ [],
      ((d :: t).reverse).getLast h2 ≠ 0 := by
    intro h2 h0
    have h3 : ((d :: t).reverse).getLast? = some d := by
      rw [List.getLast?_reverse]
      rfl
    rw [List.getLast?_eq_getLast _ h2, h0] at h3
    exact hd (Option.some.inj h3).symm
  have hdig : Nat.digits 256 n = (d :: t).reverse := by
    rw [hn, beBytesToNat]
    exact Nat.digits_ofDigits 256 (by norm_num) _ hb2 hlast
  have hn0 : n ≠ 0 := by
    intro h0
    rw [h0, Nat.digits_zero] at hdig
    exact List.cons_ne_nil d t (by simpa using congrArg List.reverse hdig)
  have h58 : ∀ x ∈ Nat.digits 58 n, x < 58 :=
    fun x hx => Nat.digits_lt_base (by norm_num) hx
  have h58ne : Nat.digits 58 n ≠ [] := Nat.digits_ne_nil_iff_ne_zero.mpr hn0
  obtain ⟨ds0, a, hconcat⟩ : ∃ ds0 a, Nat.digits 58 n = ds0 ++ [a] := by
    rcases List.eq_nil_or_concat (Nat.digits 58 n) with h | ⟨ds0, a, h⟩
    · exact absurd h h58ne
    · exact ⟨ds0, a, by simpa [List.concat_eq_append] using h⟩
  have ha0 : a ≠ 0 := by
    have hgl := Nat.getLast_digit_ne_zero 58 hn0
    have h5 : (Nat.digits 58 n).getLast? = some a := by
      rw [hconcat]
      exact List.getLast?_concat _
    rw [List.getLast?_eq_getLast _ h58ne] at h5
    rw [← Option.some.inj h5]
    exact hgl
  have ha58 : a < 58 := h58 a (by rw [hconcat]; simp)
  have hrev : (Nat.digits 58 n).reverse = a :: ds0.reverse := by
    rw [hconcat]; simp
  have henc : b58Encode (d :: t) = ⟨(a :: ds0.reverse).map b58Char⟩ := by
    unfold b58Encode
    rw [List.takeWhile_cons]
    have hd2 : ((d : Nat) == 0) = false := by simpa using hd
    rw [hd2]
    simp only [Bool.false_eq_true, if_false, List.length_nil,
      List.replicate_zero, List.nil_append]
    rw [b58Digits, ← hn, toBase_eq_digits 58 (by norm_num) n n (le_refl n),
      hrev]
  have hvals : charVals ((a :: ds0.reverse).map b58Char)
      = some (a :: ds0.reverse) := by
    refine charVals_map _ ?_
    intro x hx
    refine h58 x ?_
    have : x ∈ (Nat.digits 58 n).reverse := by rw [hrev]; exact hx
    exact List.mem_reverse.mp this
  have hof : Nat.ofDigits 58 ((a :: ds0.reverse).reverse) = n := by
    have h6 : (a :: ds0.reverse).reverse = ds0 ++ [a] := by simp
    rw [h6, ← hconcat, Nat.ofDigits_digits]
  have hbytes : natToBeBytes n = d :: t := by
    rw [natToBeBytes, toBase_eq_digits 256 (by norm_num) n n (le_refl n),
      hdig, List.reverse_reverse]
  rw [henc]
  unfold b58Decode
  simp only [List.map_cons, List.takeWhile_cons]
  have hne1 : ((b58Char a) == '1') = false := by
    simpa using b58Char_ne_one a ha58 ha0
  rw [hne1]
  simp only [Bool.false_eq_true, if_false, List.length_nil, List.drop_zero]
  rw [← List.map_cons, hvals]
  simp only [Option.some.injEq]
  rw [hof, hbytes]
  simp

/-- The compression function returns the 8 state words. -/
theorem blakeCompress_length (h m : List Nat) (t : Nat) (last : Bool) :
    (blakeCompress h m t last).length = 8 := by
  simp [blakeCompress]

/-- The block loop returns the 8 state words. -/
theorem blake2bBlocks_length :
    ∀ fuel h msg t, (blake2bBlocks fuel h msg t).length = 8 := by
  intro fuel
  induction fuel with
  | zero => intro h msg t; exact blakeCompress_length _ _ _ _
  | succ fuel ih =>
      intro h msg t
      rw [blake2bBlocks]
      split
      · exact ih _ _ _
      · exact blakeCompress_length _ _ _ _

/-- Serialised state words: 8 bytes per word. -/
theorem bytesOfWords_length (ws : List Nat) :
    (bytesOfWords ws).length = 8 * ws.length := by
  induction ws with
  | nil => rfl
  | cons w tl ih =>
      simp [bytesOfWords, wordLeBytes] at ih ⊢
      omega

/-- A Blake2b digest has its requested length (up to 64 bytes). -/
theorem blake2b_length (outLen : Nat) (hlen : outLen ≤ 64) (msg : List Nat) :
    (blake2b outLen msg).length = outLen := by
  rw [blake2b]
  simp [List.length_take, bytesOfWords_length, blake2bBlocks_length]
  omega

/-- Every byte of a Blake2b digest is a byte. -/
theorem blake2b_mem_lt (outLen : Nat) (msg : List Nat) :
    ∀ x ∈ blake2b outLen msg, x < 256 := by
  intro x hx
  rw [blake2b] at hx
  have hx2 := List.mem_of_mem_take hx
  simp only [bytesOfWords, wordLeBytes, List.mem_flatten, List.mem_map] at hx2
  obtain ⟨l2, ⟨w, _, rfl⟩, hxl⟩ := hx2
  simp only [List.mem_map, List.mem_range] at hxl
  obtain ⟨i, _, rfl⟩ := hxl
  exact Nat.mod_lt _ (by norm_num)

/-- C9: the address codec round trip.  For every well-formed 32-byte
account id, `convert_address_input` produces an SS58 string that
`convert_address_output` decodes back to exactly that id
(`decode ∘ encode = id`); consequently, on any string the encoder
produces, encoding its decoding yields the string back
(`encode ∘ decode = id` on the encoder's image — third conjunct). -/
theorem claim_C9 (addr : List Nat) (h32 : addr.length = 32)
    (hb : ∀ b ∈ addr, b < 256) :
    ∃ s, convert_address_input addr = .ok s ∧
      convert_address_output s = .ok addr ∧
      ∀ a2, convert_address_output s = .ok a2 →
        convert_address_input a2 = .ok s := by
  have henc : convert_address_input addr
      = .ok (ss58EncodeWithVersion astarPrefix addr) := by
    rw [convert_address_input, if_pos h32]
  set chk := (blake2b 64 (ss58Pre ++ astarPrefix :: addr)).take 2 with hchk
  have hchklen : chk.length = 2 := by
    rw [hchk, List.length_take, blake2b_length 64 (le_refl 64)]
    norm_num
  have hby : ∀ x ∈ (5 : Nat) :: (addr ++ chk), x < 256 := by
    intro x hx
    rcases List.mem_cons.mp hx with h5 | hx2
    · omega
    · rcases List.mem_append.mp hx2 with ha | hc
      · exact hb x ha
      · exact blake2b_mem_lt 64 _ x (List.mem_of_mem_take (hchk ▸ hc))
  have hrt : b58Decode (b58Encode (5 :: (addr ++ chk)))
      = some (5 :: (addr ++ chk)) := b58_roundtrip 5 (addr ++ chk) (by omega) hby
  have hdec : convert_address_output (ss58EncodeWithVersion astarPrefix addr)
      = .ok addr := by
    rw [convert_address_output, ss58EncodeWithVersion]
    rw [show (astarPrefix :: addr) ++ chk = 5 :: (addr ++ chk) from rfl]
    rw [ss58DecodeCheck, hrt]
    dsimp only
    have hlen : (addr ++ chk).length = 34 := by
      rw [List.length_append, h32, hchklen]
    rw [if_pos (by exact ⟨by omega, hlen⟩)]
    have htake : (addr ++ chk).take 32 = addr := by
      rw [← h32, List.take_left]
    have hdrop : (addr ++ chk).drop 32 = chk := by
      rw [← h32, List.drop_left]
    rw [htake, hdrop]
    rw [if_pos ⟨hchk, by decide⟩]
  refine ⟨ss58EncodeWithVersion astarPrefix addr, henc, hdec, ?_⟩
  intro a2 ha2
  rw [hdec] at ha2
  cases ha2
  exact henc

/-- The 32-byte account id of the repository's own codec test
(`test_convert_address`). -/
def testAddr : List Nat :=
  [0xbc, 0x5a, 0x6b, 0x58, 0x32, 0x4a, 0x63, 0x31,
   0x75, 0x37, 0x4b, 0x57, 0x46, 0x4a, 0x42, 0x35,
   0x74, 0x76, 0x55, 0x4b, 0x33, 0x64, 0x77, 0x4e,
   0x46, 0x73, 0x45, 0x41, 0x32, 0x43, 0x6e, 0x66]

/-- Witness for C9 at the repository's own test-vector address. -/
theorem claim_C9_witness :
    ∃ s, convert_address_input testAddr = .ok s ∧
      convert_address_output s = .ok testAddr ∧
      ∀ a2, convert_address_output s = .ok a2 →
        convert_address_input a2 = .ok s :=
  claim_C9 testAddr (by decide) (by decide)
